import Mathlib

/-
Verification of the binding-resolution core (src/binding.py) of a
dependency-injection container.  The Python module is shallowly embedded:
dictionaries become association lists queried through `Dict.find`, Python
sets of bindings become duplicate-free lists compared by membership, and
fallible code returns `Except`.
-/

set_option autoImplicit false

/-- String constant: the default scope identifier `scoping.PROTOTYPE`. -/
def PROTOTYPE : String := "PROTOTYPE"

/-- String constant: the scope identifier `scoping.UNSCOPED`. -/
def UNSCOPED : String := "UNSCOPED"

/-- The annotation carried by a binding key.  `noAnnot` models the
`_NO_ANNOTATION` sentinel of the annotation library; `annotObj s` models
`Annotation(s)`.  Equality of the sentinel with itself and of annotation
objects by their payload mirrors the Python equality. -/
inductive Annot where
  | noAnnot : Annot
  | annotObj (obj : String) : Annot
deriving DecidableEq

/-- `BindingKey` from binding.py: an immutable pair of an argument name and
an annotation, equal iff both fields are equal. -/
structure BindingKey where
  arg_name : String
  annot : Annot
deriving DecidableEq

/-- `new_binding_key` from binding.py: wraps a real annotation payload when
one is given and the no-annotation sentinel otherwise. -/
def new_binding_key (arg_name : String) (annotated_with : Option String) : BindingKey :=
  match annotated_with with
  | some a => { arg_name := arg_name, annot := Annot.annotObj a }
  | none => { arg_name := arg_name, annot := Annot.noAnnot }

/-- An opaque Python object as seen by `create_proviser_fn`: it only ever
asks whether the object is a class (`inspect.isclass`) and whether it is
callable, so those two observations plus an identity are the whole model. -/
structure PyValue where
  ident : Nat
  isClass : Bool
  isCallable : Bool
deriving DecidableEq

/-- The three shapes of proviser function built by `create_proviser_fn`:
ask the injector to provide a class, return a fixed instance, or call a
provider function with injection. -/
inductive ProviserFn where
  | provideClass (cls : PyValue)
  | returnInstance (inst : PyValue)
  | callProvider (fn : PyValue)
deriving DecidableEq

/-- `Binding` from binding.py: a binding key, a proviser function, a scope
identifier and a diagnostic description. -/
structure Binding where
  binding_key : BindingKey
  proviser_fn : ProviserFn
  scope_id : String
  desc : String
deriving DecidableEq

/-- Errors that the merge algorithm can raise: `ConflictingBindingsError`
(carrying the newly colliding binding and the already-bound one, in that
order) and a Python `KeyError` for the dictionary accesses the collision
handlers perform (never reachable on the call paths of the module). -/
inductive BindingsError where
  | conflictingBindings (colliding existing : Binding)
  | keyError
deriving DecidableEq

/-- Errors raised by `BindingMapping.get`: `AmbiguousArgNameError` carrying
the key and all colliding bindings, and `NothingInjectableForArgError`
carrying the key alone. -/
inductive GetError where
  | ambiguousArgName (binding_key : BindingKey) (bindings : List Binding)
  | nothingInjectableForArg (binding_key : BindingKey)
deriving DecidableEq

/-- `CyclicInjectionError` carrying the attempted binding-key stack. -/
inductive CtxError where
  | cyclicInjection (binding_key_stack : List BindingKey)
deriving DecidableEq

/-- Errors raised by `Binder.bind` and `create_proviser_fn`. -/
inductive BindError where
  | unknownScope (scope_id : String)
  | noBindingTarget (binding_key : BindingKey)
  | multipleBindingTargets (binding_key : BindingKey) (specified : List String)
  | invalidBindingTarget (binding_key : BindingKey) (target : PyValue) (kind : String)
deriving DecidableEq

/-- A Python dictionary keyed by binding keys, embedded as an association
list and observed only through `Dict.find`. -/
abbrev Dict (α : Type) : Type := List (BindingKey × α)

/-- Dictionary lookup: the value at the first matching key, if any. -/
def Dict.find {α : Type} (d : Dict α) (k : BindingKey) : Option α :=
  match d with
  | [] => none
  | kv :: rest => if kv.1 = k then some kv.2 else Dict.find rest k

/-- Removal of a key (`del d[k]` / `d.pop(k, None)`): drops every entry
with that key. -/
def Dict.erase {α : Type} (d : Dict α) (k : BindingKey) : Dict α :=
  match d with
  | [] => []
  | kv :: rest => if kv.1 = k then Dict.erase rest k else kv :: Dict.erase rest k

/-- Dictionary assignment `d[k] = v`: the new entry shadows any old one. -/
def Dict.set {α : Type} (d : Dict α) (k : BindingKey) (v : α) : Dict α :=
  (k, v) :: Dict.erase d k

/-- Python `d.update(other)`: assign every entry of `other` into `d`. -/
def Dict.update {α : Type} (d other : Dict α) : Dict α :=
  other.foldl (fun acc kv => Dict.set acc kv.1 kv.2) d

/-- The keys of a dictionary are pairwise distinct.  Every dictionary the
module builds (starting from `{}` and using only assignment and removal)
satisfies this. -/
def Dict.NodupKeys {α : Type} (d : Dict α) : Prop :=
  (d.map Prod.fst).Nodup

/-- A Python set of bindings, embedded as a duplicate-free list observed by
membership. -/
abbrev BindingSet : Type := List Binding

/-- Python `s.add(b)` on a set of bindings. -/
def setAdd (s : BindingSet) (b : Binding) : BindingSet :=
  if b ∈ s then s else s ++ [b]

/-- The resolved map of a merge: binding key to binding. -/
abbrev DictB : Type := Dict Binding

/-- The collided side-table of a merge: binding key to set of bindings. -/
abbrev DictS : Type := Dict BindingSet

/-- The type of the collision handlers passed to
`_get_binding_key_to_binding_maps`: given the colliding binding and the two
maps, fail or return updated maps. -/
abbrev Handler : Type := Binding → DictB → DictS → Except BindingsError (DictB × DictS)

/-- `_handle_explicit_binding_collision` from binding.py: raise
`ConflictingBindingsError` naming the new binding and the one already bound
to its key.  (If the key were absent the Python dictionary access would
raise `KeyError`; the handler is only invoked when the key is present.) -/
def handle_explicit_binding_collision : Handler :=
  fun colliding res _col =>
    match Dict.find res colliding.binding_key with
    | some other => Except.error (BindingsError.conflictingBindings colliding other)
    | none => Except.error BindingsError.keyError

/-- `_handle_implicit_binding_collision` from binding.py: move the already
bound binding for the key into the collided side-table (creating the entry
as an empty set if needed, as `setdefault` does) and delete the key from
the resolved map. -/
def handle_implicit_binding_collision : Handler :=
  fun colliding res col =>
    match Dict.find res colliding.binding_key with
    | some other =>
        Except.ok (Dict.erase res colliding.binding_key,
          Dict.set col colliding.binding_key
            (setAdd ((Dict.find col colliding.binding_key).getD []) other))
    | none => Except.error BindingsError.keyError

/-- One iteration of the loop in `_get_binding_key_to_binding_maps`: if the
binding's key is already resolved, run the collision handler; then either
add the binding to the existing collided set for its key or record it in
the resolved map. -/
def mergeStep (handler : Handler) (maps : DictB × DictS) (b : Binding) :
    Except BindingsError (DictB × DictS) := do
  let (res, col) ← if (Dict.find maps.1 b.binding_key).isSome
    then handler b maps.1 maps.2 else pure maps
  match Dict.find col b.binding_key with
  | some s => pure (res, Dict.set col b.binding_key (setAdd s b))
  | none => pure (Dict.set res b.binding_key b, col)

/-- `_get_binding_key_to_binding_maps` from binding.py: fold `mergeStep`
over one tier's bindings, starting from two empty maps. -/
def get_binding_key_to_binding_maps (bindings : List Binding) (handler : Handler) :
    Except BindingsError (DictB × DictS) :=
  bindings.foldlM (mergeStep handler) ([], [])

/-- The tier loop of `get_overall_binding_key_to_binding_maps`: the last
tier uses the explicit collision handler, every earlier one the implicit
handler; keys resolved by the current tier are popped from the running
collided table, then the tier's two maps are folded into the running
maps with dictionary `update`. -/
def overallGo : List (List Binding) → DictB → DictS → Except BindingsError (DictB × DictS)
  | [], res, col => Except.ok (res, col)
  | bindings :: rest, res, col => do
      let handler := if rest.isEmpty then handle_explicit_binding_collision
        else handle_implicit_binding_collision
      let (tRes, tCol) ← get_binding_key_to_binding_maps bindings handler
      let col1 := tRes.foldl (fun c kv => Dict.erase c kv.1) col
      overallGo rest (Dict.update res tRes) (Dict.update col1 tCol)

/-- `get_overall_binding_key_to_binding_maps` from binding.py: merge the
tiers, lowest priority first, the last tier being the explicit one. -/
def get_overall_binding_key_to_binding_maps (bindings_lists : List (List Binding)) :
    Except BindingsError (DictB × DictS) :=
  overallGo bindings_lists [] []

/-- `BindingMapping` from binding.py: the read-only result of the merge. -/
structure BindingMapping where
  binding_key_to_binding : DictB
  collided_binding_key_to_bindings : DictS

/-- `BindingMapping.get`: the unique binding if the key is resolved, the
ambiguous-argument-name error with all colliding bindings if it is in the
collided table, and the nothing-injectable error otherwise.  A pure
function of the mapping: no merging and no state change. -/
def BindingMapping.get (m : BindingMapping) (binding_key : BindingKey) :
    Except GetError Binding :=
  match Dict.find m.binding_key_to_binding binding_key with
  | some b => Except.ok b
  | none =>
    match Dict.find m.collided_binding_key_to_bindings binding_key with
    | some bindings => Except.error (GetError.ambiguousArgName binding_key bindings)
    | none => Except.error (GetError.nothingInjectableForArg binding_key)

/-- `BindingContext` from binding.py: the stack of binding keys currently
being resolved, plus the scope of the current step. -/
structure BindingContext where
  binding_key_stack : List BindingKey
  scope_id : String
deriving DecidableEq

/-- `new_binding_context` from binding.py: empty stack, unscoped. -/
def new_binding_context : BindingContext :=
  { binding_key_stack := [], scope_id := UNSCOPED }

/-- `BindingContext.get_child`: append the key to a copy of the stack; if
the key already occurs in the current stack, raise `CyclicInjectionError`
carrying the full attempted stack, else return the child context. -/
def BindingContext.get_child (c : BindingContext) (binding_key : BindingKey)
    (scope_id : String) : Except CtxError BindingContext :=
  let new_binding_key_stack := c.binding_key_stack ++ [binding_key]
  if binding_key ∈ c.binding_key_stack then
    Except.error (CtxError.cyclicInjection new_binding_key_stack)
  else
    Except.ok { binding_key_stack := new_binding_key_stack, scope_id := scope_id }

/-- `BindingContext.does_scope_id_match`: apply the predicate to the held
scope identifier. -/
def BindingContext.does_scope_id_match (c : BindingContext)
    (does_scope_id_match_fn : String → Bool) : Bool :=
  does_scope_id_match_fn c.scope_id

/-- The loop of `default_get_arg_names_from_class_name`: repeatedly match
the anchored regex `([A-Z][a-z]+)(.*)` against the remaining characters,
collecting the matched parts, and stop at the first failure.  The regex
class `[A-Z]` is ASCII upper case and `[a-z]+` a maximal nonempty ASCII
lower-case run (the trailing `(.*)` makes `[a-z]+` greedy).  Each
successful iteration consumes at least two characters, so running the loop
with the length of the input as fuel is exact. -/
def camelLoopFuel : Nat → List Char → List (List Char)
  | 0, _ => []
  | fuel + 1, chars =>
    match chars with
    | [] => []
    | c :: cs =>
      if c.isUpper then
        let lows := cs.takeWhile Char.isLower
        if lows.isEmpty then []
        else (c :: lows) :: camelLoopFuel fuel (cs.drop lows.length)
      else []

/-- The regex loop run with enough fuel to never cut off. -/
def camelLoop (chars : List Char) : List (List Char) :=
  camelLoopFuel chars.length chars

/-- Python `'_'.join(parts)` on character lists. -/
def joinParts : List (List Char) → List Char
  | [] => []
  | [p] => p
  | p :: ps => p ++ '_' :: joinParts ps

/-- The `rest` variable of `default_get_arg_names_from_class_name` after
the optional strip of one leading underscore. -/
def stripLeadUnderscore (class_name : String) : List Char :=
  match class_name.data with
  | '_' :: cs => cs
  | cs => cs

/-- True iff the anchored regex `([A-Z][a-z]+)` fails at the very start of
the character list, i.e. no upper-case letter followed by at least one
lower-case letter stands at the scanning position. -/
def noCamelStart (chars : List Char) : Bool :=
  match chars with
  | [] => true
  | c :: cs => !(c.isUpper && !(cs.takeWhile Char.isLower).isEmpty)

/-- `default_get_arg_names_from_class_name` from binding.py: strip one
leading underscore, split the CamelCase remainder with the regex loop, and
return the single lower-cased underscore-joined candidate, or the empty
list when no part matched. -/
def default_get_arg_names_from_class_name (class_name : String) : List String :=
  let parts := camelLoop (stripLeadUnderscore class_name)
  if parts.isEmpty then []
  else [String.mk (joinParts (parts.map (fun p => p.map Char.toLower)))]

/-- String constant used in the multiple-targets diagnostics. -/
def toClassParam : String := "to_class"

/-- String constant used in the multiple-targets diagnostics. -/
def toInstanceParam : String := "to_instance"

/-- String constant used in the multiple-targets diagnostics. -/
def toProviderParam : String := "to_provider"

/-- String constant naming the expected shape of a class target. -/
def classKind : String := "class"

/-- String constant naming the expected shape of a provider target. -/
def callableKind : String := "callable"

/-- The `specified_to_params` list built at the top of
`create_proviser_fn`: the names of the target parameters that were
supplied (Python tests `is not None`, so a supplied `None` counts as
absent). -/
def specifiedToParams (to_class to_instance to_provider : Option PyValue) : List String :=
  (([if to_class.isSome then some toClassParam else none,
     if to_instance.isSome then some toInstanceParam else none,
     if to_provider.isSome then some toProviderParam else none] :
    List (Option String))).filterMap id

/-- `create_proviser_fn` from binding.py: require exactly one target form,
check that a class target is a class and a provider target is callable,
and build the corresponding proviser function. -/
def create_proviser_fn (binding_key : BindingKey)
    (to_class to_instance to_provider : Option PyValue) :
    Except BindError ProviserFn :=
  let specified := specifiedToParams to_class to_instance to_provider
  if specified.isEmpty then
    Except.error (BindError.noBindingTarget binding_key)
  else if 1 < specified.length then
    Except.error (BindError.multipleBindingTargets binding_key specified)
  else
    match to_class, to_instance, to_provider with
    | some cls, _, _ =>
        if cls.isClass then Except.ok (ProviserFn.provideClass cls)
        else Except.error (BindError.invalidBindingTarget binding_key cls classKind)
    | none, some inst, _ => Except.ok (ProviserFn.returnInstance inst)
    | none, none, some fn =>
        if fn.isCallable then Except.ok (ProviserFn.callProvider fn)
        else Except.error (BindError.invalidBindingTarget binding_key fn callableKind)
    | none, none, none => Except.error (BindError.noBindingTarget binding_key)

/-- `Binder` from binding.py: the accumulator of collected bindings plus
the known scope identifiers.  (The lock only guards the append and has no
observable effect on the sequential semantics.) -/
structure Binder where
  collected_bindings : List Binding
  scope_ids : List String
deriving DecidableEq

/-- The diagnostic description `Binder.bind` builds from the caller's
frame; the caller's line and file are taken as parameters here. -/
def bindDesc (lineno : Nat) (filename : String) : String :=
  String.append (String.append "the explicit binding target at line "
    (toString lineno)) (String.append " of " filename)

/-- `Binder.bind` from binding.py: validate the scope, build the proviser
function (validating the target forms), and append the new binding to the
collected accumulator. -/
def Binder.bind (binder : Binder) (arg_name : String) (annotated_with : Option String)
    (to_class to_instance to_provider : Option PyValue) (in_scope : String)
    (lineno : Nat) (filename : String) : Except BindError Binder :=
  if in_scope ∉ binder.scope_ids then
    Except.error (BindError.unknownScope in_scope)
  else do
    let binding_key := new_binding_key arg_name annotated_with
    let pf ← create_proviser_fn binding_key to_class to_instance to_provider
    Except.ok { binder with
      collected_bindings := binder.collected_bindings ++
        [{ binding_key := binding_key, proviser_fn := pf, scope_id := in_scope,
           desc := bindDesc lineno filename }] }

/-- The bindings of a list whose binding key is `k` (in list order). -/
def keyBindings (bindings : List Binding) (k : BindingKey) : List Binding :=
  bindings.filter (fun b => decide (b.binding_key = k))

/-- The number of bindings for key `k` in a list. -/
def countKey (bindings : List Binding) (k : BindingKey) : Nat :=
  (keyBindings bindings k).length

/-- Specification of one implicit tier merge after processing the bindings
`p`: the two maps have duplicate-free keys; a key bound zero times is in
neither map, a key bound exactly once is resolved to its unique binding,
and a key bound at least twice is unresolved with the collided entry
holding exactly the bindings for that key. -/
def ImplicitSpec (p : List Binding) (res : DictB) (col : DictS) : Prop :=
  Dict.NodupKeys res ∧ Dict.NodupKeys col ∧
  ∀ k : BindingKey,
    (keyBindings p k = [] → Dict.find res k = none ∧ Dict.find col k = none) ∧
    (∀ b : Binding, keyBindings p k = [b] →
      Dict.find res k = some b ∧ Dict.find col k = none) ∧
    (2 ≤ (keyBindings p k).length →
      Dict.find res k = none ∧
      ∃ s, Dict.find col k = some s ∧ ∀ b : Binding, (b ∈ s ↔ b ∈ keyBindings p k))

/-- Specification of one explicit tier merge after processing the bindings
`p` without failing: the collided table is untouched, keys are pairwise
distinct among `p`, and the resolved map holds exactly the processed
bindings. -/
def ExplicitInv (p : List Binding) (res : DictB) (col : DictS) : Prop :=
  col = [] ∧ Dict.NodupKeys res ∧
  ∀ k : BindingKey,
    (keyBindings p k = [] → Dict.find res k = none) ∧
    (∀ b : Binding, keyBindings p k = [b] → Dict.find res k = some b) ∧
    (keyBindings p k).length ≤ 1

/-- Sample argument name used by the concrete witnesses below. -/
def argFoo : String := "foo"

/-- Sample argument names used by the cycle-detection witnesses. -/
def argA : String := "a"

/-- Sample argument name. -/
def argB : String := "b"

/-- Sample argument name. -/
def argC : String := "c"

/-- Sample binding key used by the concrete witnesses below. -/
def sampleKey : BindingKey := new_binding_key argFoo none

/-- Sample binding key distinct from `sampleKey`. -/
def otherKey : BindingKey := new_binding_key argB none

/-- Sample opaque value that is neither a class nor callable. -/
def sampleVal (n : Nat) : PyValue :=
  { ident := n, isClass := false, isCallable := false }

/-- Sample class-like value. -/
def sampleCls (n : Nat) : PyValue :=
  { ident := n, isClass := true, isCallable := true }

/-- Sample binding with a numbered description, so that distinct sample
bindings are distinguishable the way distinct Python objects are. -/
def sampleBinding (n : Nat) (k : BindingKey) : Binding :=
  { binding_key := k, proviser_fn := ProviserFn.returnInstance (sampleVal n),
    scope_id := PROTOTYPE, desc := toString n }

/-- Sample scope identifier absent from every sample binder. -/
def badScope : String := "BOGUS"

/-- Sample file name for binder witnesses. -/
def sampleFile : String := "binding_module"

/-- Sample binder knowing only the prototype scope. -/
def sampleBinder : Binder :=
  { collected_bindings := [], scope_ids := [PROTOTYPE] }

/-- Class name used by the naming-convention claim. -/
def fooBarName : String := "FooBar"

/-- Class name with a leading underscore marker. -/
def underFooBarName : String := "_FooBar"

/-- Expected derived argument name. -/
def fooBarArg : String := "foo_bar"

/-- Class name with no word boundary at the scanning position. -/
def allCapsName : String := "FOOBar"

/-- Sample binding keys for the cycle-detection witness. -/
def keyA : BindingKey := new_binding_key argA none

/-- Sample binding key. -/
def keyB : BindingKey := new_binding_key argB none

/-- Sample binding key. -/
def keyC : BindingKey := new_binding_key argC none

/-- Sample binding mapping with one resolved key and one collided key. -/
def sampleMapping : BindingMapping :=
  { binding_key_to_binding := [(sampleKey, sampleBinding 1 sampleKey)],
    collided_binding_key_to_bindings :=
      [(otherKey, [sampleBinding 2 otherKey, sampleBinding 3 otherKey])] }

theorem Dict.find_erase_self {α : Type} (d : Dict α) (k : BindingKey) :
    Dict.find (Dict.erase d k) k = none := by
  induction d with
  | nil => rfl
  | cons kv rest ih =>
      by_cases h : kv.1 = k
      · simp [Dict.erase, h, ih]
      · simp [Dict.erase, Dict.find, h, ih]

theorem Dict.find_erase_ne {α : Type} (d : Dict α) (k k' : BindingKey) (h : k' ≠ k) :
    Dict.find (Dict.erase d k) k' = Dict.find d k' := by
  have hne : k ≠ k' := fun hc => h hc.symm
  induction d with
  | nil => rfl
  | cons kv rest ih =>
      by_cases hk : kv.1 = k
      · simp [Dict.erase, Dict.find, hk, hne, ih]
      · simp [Dict.erase, Dict.find, hk, ih]

theorem Dict.find_set_self {α : Type} (d : Dict α) (k : BindingKey) (v : α) :
    Dict.find (Dict.set d k v) k = some v := by
  simp [Dict.set, Dict.find]

theorem Dict.find_set_ne {α : Type} (d : Dict α) (k k' : BindingKey) (v : α) (h : k' ≠ k) :
    Dict.find (Dict.set d k v) k' = Dict.find d k' := by
  have : k ≠ k' := fun hc => h hc.symm
  simp [Dict.set, Dict.find, this, Dict.find_erase_ne d k k' h]

theorem Dict.erase_subset {α : Type} (d : Dict α) (k : BindingKey) :
    Dict.erase d k ⊆ d := by
  induction d with
  | nil => intro x hx; exact hx
  | cons kv rest ih =>
      intro x hx
      by_cases hk : kv.1 = k
      · simp only [Dict.erase, hk, if_true] at hx
        exact List.mem_cons_of_mem kv (ih hx)
      · simp only [Dict.erase, hk, if_false, List.mem_cons] at hx
        rcases hx with hx | hx
        · exact hx ▸ List.mem_cons_self kv rest
        · exact List.mem_cons_of_mem kv (ih hx)

theorem Dict.not_mem_erase_keys {α : Type} (d : Dict α) (k : BindingKey) :
    k ∉ (Dict.erase d k).map Prod.fst := by
  induction d with
  | nil => simp [Dict.erase]
  | cons kv rest ih =>
      by_cases h : kv.1 = k
      · simp only [Dict.erase, h, if_true]
        exact ih
      · simp [Dict.erase, h, ih]
        intro hc
        exact h hc.symm

theorem Dict.nodupKeys_erase {α : Type} (d : Dict α) (k : BindingKey)
    (h : Dict.NodupKeys d) : Dict.NodupKeys (Dict.erase d k) := by
  induction d with
  | nil => exact h
  | cons kv rest ih =>
      unfold Dict.NodupKeys at h ⊢
      simp only [List.map_cons, List.nodup_cons] at h
      by_cases hk : kv.1 = k
      · simp only [Dict.erase, hk, if_true]
        exact ih h.2
      · simp only [Dict.erase, hk, if_false, List.map_cons, List.nodup_cons]
        refine ⟨?_, ih h.2⟩
        intro hc
        rcases List.mem_map.mp hc with ⟨kv', hkv', hfst⟩
        exact h.1 (List.mem_map.mpr ⟨kv', Dict.erase_subset rest k hkv', hfst⟩)

theorem Dict.nodupKeys_set {α : Type} (d : Dict α) (k : BindingKey) (v : α)
    (h : Dict.NodupKeys d) : Dict.NodupKeys (Dict.set d k v) := by
  unfold Dict.NodupKeys Dict.set
  simp only [List.map_cons, List.nodup_cons]
  exact ⟨Dict.not_mem_erase_keys d k, Dict.nodupKeys_erase d k h⟩

theorem Dict.nodupKeys_nil {α : Type} : Dict.NodupKeys ([] : Dict α) := by
  simp [Dict.NodupKeys]

theorem Dict.find_isSome_iff {α : Type} (d : Dict α) (k : BindingKey) :
    (Dict.find d k).isSome = true ↔ k ∈ d.map Prod.fst := by
  induction d with
  | nil => simp [Dict.find]
  | cons kv rest ih =>
      by_cases h : kv.1 = k
      · simp [Dict.find, h]
      · simp only [Dict.find, h, if_false, List.map_cons, List.mem_cons, ih]
        constructor
        · intro hx
          exact Or.inr hx
        · intro hx
          rcases hx with hx | hx
          · exact absurd hx.symm h
          · exact hx

theorem Dict.find_eq_none_iff {α : Type} (d : Dict α) (k : BindingKey) :
    Dict.find d k = none ↔ k ∉ d.map Prod.fst := by
  rw [← Dict.find_isSome_iff]
  cases Dict.find d k <;> simp

theorem Dict.find_update_of_none {α : Type} (other : Dict α) :
    ∀ (d : Dict α) (k : BindingKey), Dict.find other k = none →
      Dict.find (Dict.update d other) k = Dict.find d k := by
  induction other with
  | nil => intro d k _; rfl
  | cons kv rest ih =>
      intro d k h
      simp only [Dict.find] at h
      by_cases hk : kv.1 = k
      · simp [hk] at h
      · simp only [hk, if_false] at h
        have hstep : Dict.update d (kv :: rest) = Dict.update (Dict.set d kv.1 kv.2) rest := rfl
        rw [hstep, ih (Dict.set d kv.1 kv.2) k h,
          Dict.find_set_ne d kv.1 k kv.2 (fun hc => hk hc.symm)]

theorem Dict.find_update_of_some {α : Type} (other : Dict α) :
    ∀ (d : Dict α) (k : BindingKey) (v : α), Dict.NodupKeys other →
      Dict.find other k = some v → Dict.find (Dict.update d other) k = some v := by
  induction other with
  | nil => intro d k v _ h; simp [Dict.find] at h
  | cons kv rest ih =>
      intro d k v hn h
      have hstep : Dict.update d (kv :: rest) = Dict.update (Dict.set d kv.1 kv.2) rest := rfl
      unfold Dict.NodupKeys at hn
      simp only [List.map_cons, List.nodup_cons] at hn
      simp only [Dict.find] at h
      by_cases hk : kv.1 = k
      · simp only [hk, if_true, Option.some.injEq] at h
        subst h
        have hrest : Dict.find rest k = none := by
          rw [Dict.find_eq_none_iff]
          intro hc
          exact hn.1 (hk ▸ hc)
        rw [hstep, Dict.find_update_of_none rest (Dict.set d kv.1 kv.2) k hrest, ← hk]
        exact Dict.find_set_self d kv.1 kv.2
      · simp only [hk, if_false] at h
        rw [hstep]
        exact ih (Dict.set d kv.1 kv.2) k v hn.2 h

theorem Dict.find_foldl_erase {α β : Type} (l : Dict α) :
    ∀ (col : Dict β) (k : BindingKey),
      Dict.find (l.foldl (fun c kv => Dict.erase c kv.1) col) k =
        if k ∈ l.map Prod.fst then none else Dict.find col k := by
  induction l with
  | nil => intro col k; simp
  | cons hd rest ih =>
      intro col k
      have hstep : (hd :: rest).foldl (fun c kv => Dict.erase c kv.1) col =
          rest.foldl (fun c kv => Dict.erase c kv.1) (Dict.erase col hd.1) := rfl
      rw [hstep, ih (Dict.erase col hd.1) k]
      by_cases hk : k = hd.1
      · by_cases hm : k ∈ rest.map Prod.fst
        · rw [if_pos hm, if_pos (show k ∈ (hd :: rest).map Prod.fst by simp [hm])]
        · subst hk
          rw [if_neg hm, Dict.find_erase_self, if_pos (by simp)]
      · by_cases hm : k ∈ rest.map Prod.fst
        · rw [if_pos hm, if_pos (show k ∈ (hd :: rest).map Prod.fst by simp [hm])]
        · rw [if_neg hm, Dict.find_erase_ne col hd.1 k hk,
            if_neg (show k ∉ (hd :: rest).map Prod.fst by simp [hk, hm])]

theorem mem_setAdd (s : BindingSet) (b x : Binding) :
    x ∈ setAdd s b ↔ (x ∈ s ∨ x = b) := by
  unfold setAdd
  by_cases h : b ∈ s
  · simp only [h, if_true]
    constructor
    · exact Or.inl
    · intro hx
      rcases hx with hx | hx
      · exact hx
      · exact hx ▸ h
  · simp [h]

theorem keyBindings_append (p q : List Binding) (k : BindingKey) :
    keyBindings (p ++ q) k = keyBindings p k ++ keyBindings q k := by
  simp [keyBindings, List.filter_append]

theorem keyBindings_singleton_self (b : Binding) (k : BindingKey) (h : b.binding_key = k) :
    keyBindings [b] k = [b] := by
  simp [keyBindings, h]

theorem keyBindings_singleton_ne (b : Binding) (k : BindingKey) (h : ¬ b.binding_key = k) :
    keyBindings [b] k = [] := by
  simp [keyBindings, h]

theorem mem_keyBindings (p : List Binding) (k : BindingKey) (x : Binding) :
    x ∈ keyBindings p k ↔ (x ∈ p ∧ x.binding_key = k) := by
  simp [keyBindings, List.mem_filter]

theorem pureEqOk {ε α : Type} (a : α) : (pure a : Except ε α) = Except.ok a := rfl

theorem bindOk {ε α β : Type} (a : α) (f : α → Except ε β) :
    (Except.ok a : Except ε α) >>= f = f a := rfl

theorem mergeStep_not_resolved (handler : Handler) (res : DictB) (col : DictS) (b : Binding)
    (hres : Dict.find res b.binding_key = none) :
    mergeStep handler (res, col) b =
      match Dict.find col b.binding_key with
      | some s => Except.ok (res, Dict.set col b.binding_key (setAdd s b))
      | none => Except.ok (Dict.set res b.binding_key b, col) := by
  simp only [mergeStep]
  rw [hres]
  rfl

theorem mergeStep_of_handler (handler : Handler) (res : DictB) (col : DictS) (b : Binding)
    (res1 : DictB) (col1 : DictS)
    (hres : (Dict.find res b.binding_key).isSome = true)
    (hh : handler b res col = Except.ok (res1, col1)) :
    mergeStep handler (res, col) b =
      match Dict.find col1 b.binding_key with
      | some s => Except.ok (res1, Dict.set col1 b.binding_key (setAdd s b))
      | none => Except.ok (Dict.set res1 b.binding_key b, col1) := by
  simp only [mergeStep]
  rw [hres, hh]
  rfl

theorem implicit_step (p : List Binding) (res : DictB) (col : DictS)
    (h : ImplicitSpec p res col) (b : Binding) :
    ∃ res' col',
      mergeStep handle_implicit_binding_collision (res, col) b = Except.ok (res', col')
        ∧ ImplicitSpec (p ++ [b]) res' col' := by
  obtain ⟨hnr, hnc, hall⟩ := h
  rcases hcase : keyBindings p b.binding_key with _ | ⟨a, _ | ⟨a', t⟩⟩
  · -- the key was not bound yet: record the binding in the resolved map
    have h1 := (hall b.binding_key).1 hcase
    refine ⟨Dict.set res b.binding_key b, col, ?_, ?_⟩
    · rw [mergeStep_not_resolved handle_implicit_binding_collision res col b h1.1, h1.2]
    · refine ⟨Dict.nodupKeys_set res b.binding_key b hnr, hnc, ?_⟩
      intro k
      by_cases hkk : k = b.binding_key
      · subst hkk
        have hkey : keyBindings (p ++ [b]) b.binding_key = [b] := by
          rw [keyBindings_append, hcase, keyBindings_singleton_self b b.binding_key rfl]
          simp
        refine ⟨?_, ?_, ?_⟩
        · intro hc
          rw [hkey] at hc
          simp at hc
        · intro b' hb'
          rw [hkey] at hb'
          simp only [List.cons.injEq, and_true] at hb'
          subst hb'
          exact ⟨Dict.find_set_self res b.binding_key b, h1.2⟩
        · intro h2
          rw [hkey] at h2
          simp at h2
      · have hkey : keyBindings (p ++ [b]) k = keyBindings p k := by
          rw [keyBindings_append, keyBindings_singleton_ne b k (fun hc => hkk hc.symm),
            List.append_nil]
        have hfind : Dict.find (Dict.set res b.binding_key b) k = Dict.find res k :=
          Dict.find_set_ne res b.binding_key k b hkk
        rw [hkey, hfind]
        exact hall k
  · -- exactly one binding so far: move both into the collided table
    have h1 := (hall b.binding_key).2.1 a hcase
    refine ⟨Dict.erase res b.binding_key,
      Dict.set (Dict.set col b.binding_key [a]) b.binding_key (setAdd [a] b), ?_, ?_⟩
    · have hcomp : handle_implicit_binding_collision b res col
          = Except.ok (Dict.erase res b.binding_key, Dict.set col b.binding_key [a]) := by
        simp only [handle_implicit_binding_collision]
        rw [h1.1, h1.2]
        rfl
      rw [mergeStep_of_handler handle_implicit_binding_collision res col b _ _
          (by rw [h1.1]; rfl) hcomp,
        Dict.find_set_self col b.binding_key [a]]
    · refine ⟨Dict.nodupKeys_erase res b.binding_key hnr,
        Dict.nodupKeys_set _ _ _ (Dict.nodupKeys_set col b.binding_key [a] hnc), ?_⟩
      intro k
      by_cases hkk : k = b.binding_key
      · subst hkk
        have hkey : keyBindings (p ++ [b]) b.binding_key = [a, b] := by
          rw [keyBindings_append, hcase, keyBindings_singleton_self b b.binding_key rfl]
          rfl
        refine ⟨?_, ?_, ?_⟩
        · intro hc
          rw [hkey] at hc
          simp at hc
        · intro b' hb'
          rw [hkey] at hb'
          simp at hb'
        · intro _
          refine ⟨Dict.find_erase_self res b.binding_key, setAdd [a] b,
            Dict.find_set_self _ b.binding_key _, ?_⟩
          intro x
          rw [hkey]
          simp [mem_setAdd]
      · have hkey : keyBindings (p ++ [b]) k = keyBindings p k := by
          rw [keyBindings_append, keyBindings_singleton_ne b k (fun hc => hkk hc.symm),
            List.append_nil]
        have hfr : Dict.find (Dict.erase res b.binding_key) k = Dict.find res k :=
          Dict.find_erase_ne res b.binding_key k hkk
        have hfc : Dict.find
            (Dict.set (Dict.set col b.binding_key [a]) b.binding_key (setAdd [a] b)) k
            = Dict.find col k := by
          rw [Dict.find_set_ne _ _ _ _ hkk, Dict.find_set_ne _ _ _ _ hkk]
        rw [hkey, hfr, hfc]
        exact hall k
  · -- two or more bindings so far: add the new one to the collided set
    have hlen : 2 ≤ (keyBindings p b.binding_key).length := by
      rw [hcase]
      simp only [List.length_cons]
      omega
    obtain ⟨hres0, s, hcol0, hmem⟩ := (hall b.binding_key).2.2 hlen
    refine ⟨res, Dict.set col b.binding_key (setAdd s b), ?_, ?_⟩
    · rw [mergeStep_not_resolved handle_implicit_binding_collision res col b hres0, hcol0]
    · refine ⟨hnr, Dict.nodupKeys_set col b.binding_key (setAdd s b) hnc, ?_⟩
      intro k
      by_cases hkk : k = b.binding_key
      · subst hkk
        have hkey : keyBindings (p ++ [b]) b.binding_key
            = keyBindings p b.binding_key ++ [b] := by
          rw [keyBindings_append, keyBindings_singleton_self b b.binding_key rfl]
        refine ⟨?_, ?_, ?_⟩
        · intro hc
          rw [hkey, hcase] at hc
          simp at hc
        · intro b' hb'
          rw [hkey, hcase] at hb'
          simp at hb'
        · intro _
          refine ⟨hres0, setAdd s b, Dict.find_set_self _ b.binding_key _, ?_⟩
          intro x
          rw [hkey]
          simp [mem_setAdd, hmem x]
      · have hkey : keyBindings (p ++ [b]) k = keyBindings p k := by
          rw [keyBindings_append, keyBindings_singleton_ne b k (fun hc => hkk hc.symm),
            List.append_nil]
        have hfc : Dict.find (Dict.set col b.binding_key (setAdd s b)) k = Dict.find col k :=
          Dict.find_set_ne col b.binding_key k (setAdd s b) hkk
        rw [hkey, hfc]
        exact hall k

theorem implicit_fold (todo : List Binding) :
    ∀ (p : List Binding) (res : DictB) (col : DictS), ImplicitSpec p res col →
      ∃ res' col',
        List.foldlM (mergeStep handle_implicit_binding_collision) (res, col) todo
          = Except.ok (res', col') ∧ ImplicitSpec (p ++ todo) res' col' := by
  induction todo with
  | nil =>
      intro p res col h
      exact ⟨res, col, rfl, by simpa using h⟩
  | cons b todo' ih =>
      intro p res col h
      obtain ⟨res1, col1, hstep, hspec1⟩ := implicit_step p res col h b
      obtain ⟨res', col', hfold, hspec⟩ := ih (p ++ [b]) res1 col1 hspec1
      refine ⟨res', col', ?_, ?_⟩
      · rw [List.foldlM_cons, hstep, bindOk]
        exact hfold
      · have heq : (p ++ [b]) ++ todo' = p ++ b :: todo' := by simp
        rw [← heq]
        exact hspec

theorem implicit_tier_spec (bindings : List Binding) :
    ∃ res col,
      get_binding_key_to_binding_maps bindings handle_implicit_binding_collision
        = Except.ok (res, col) ∧ ImplicitSpec bindings res col := by
  have h0 : ImplicitSpec [] [] [] := by
    refine ⟨Dict.nodupKeys_nil, Dict.nodupKeys_nil, ?_⟩
    intro k
    refine ⟨fun _ => ⟨rfl, rfl⟩, fun b hb => ?_, fun h2 => ?_⟩
    · simp [keyBindings] at hb
    · simp [keyBindings] at h2
  simpa [get_binding_key_to_binding_maps] using implicit_fold bindings [] [] [] h0

theorem bindError {ε α β : Type} (e : ε) (f : α → Except ε β) :
    (Except.error e : Except ε α) >>= f = Except.error e := rfl

theorem mergeStep_fresh (handler : Handler) (res : DictB) (col : DictS) (b : Binding)
    (hres : Dict.find res b.binding_key = none)
    (hcol : Dict.find col b.binding_key = none) :
    mergeStep handler (res, col) b = Except.ok (Dict.set res b.binding_key b, col) := by
  rw [mergeStep_not_resolved handler res col b hres, hcol]

theorem mergeStep_explicit_collision (res : DictB) (col : DictS) (b a : Binding)
    (hfr : Dict.find res b.binding_key = some a) :
    mergeStep handle_explicit_binding_collision (res, col) b
      = Except.error (BindingsError.conflictingBindings b a) := by
  simp only [mergeStep, handle_explicit_binding_collision]
  rw [hfr]
  rfl

theorem length_keyBindings_eq_count (p : List Binding) (k : BindingKey) :
    (keyBindings p k).length = (p.map Binding.binding_key).count k := by
  induction p with
  | nil => rfl
  | cons b t ih =>
      by_cases hb : b.binding_key = k
      · have ih' : (List.filter (fun b => decide (b.binding_key = k)) t).length
            = List.count k (List.map Binding.binding_key t) := ih
        simp [keyBindings, List.filter_cons, List.count_cons, hb, ih']
      · have ih' : (List.filter (fun b => decide (b.binding_key = k)) t).length
            = List.count k (List.map Binding.binding_key t) := ih
        have hb' : ¬ k = b.binding_key := fun hc => hb hc.symm
        simp [keyBindings, List.filter_cons, List.count_cons, hb, hb', ih']

theorem nodup_of_counts (p : List Binding)
    (h : ∀ k, (keyBindings p k).length ≤ 1) :
    (p.map Binding.binding_key).Nodup := by
  rw [List.nodup_iff_count_le_one]
  intro a
  have := h a
  rwa [length_keyBindings_eq_count] at this

theorem keyBindings_eq_nil_of_find_none (p : List Binding) (res : DictB) (col : DictS)
    (k : BindingKey) (h : ExplicitInv p res col) (hfr : Dict.find res k = none) :
    keyBindings p k = [] := by
  obtain ⟨_, _, hall⟩ := h
  rcases hh : keyBindings p k with _ | ⟨x, _ | ⟨y, t⟩⟩
  · rfl
  · have := (hall k).2.1 x hh
    rw [this] at hfr
    cases hfr
  · have := (hall k).2.2
    rw [hh] at this
    simp at this

theorem explicitInv_step (p : List Binding) (res : DictB) (b : Binding)
    (h : ExplicitInv p res []) (hfr : Dict.find res b.binding_key = none) :
    ExplicitInv (p ++ [b]) (Dict.set res b.binding_key b) [] := by
  have hnil : keyBindings p b.binding_key = [] :=
    keyBindings_eq_nil_of_find_none p res [] b.binding_key h hfr
  obtain ⟨_, hnr, hall⟩ := h
  refine ⟨rfl, Dict.nodupKeys_set res b.binding_key b hnr, ?_⟩
  intro k
  by_cases hkk : k = b.binding_key
  · subst hkk
    have hkey : keyBindings (p ++ [b]) b.binding_key = [b] := by
      rw [keyBindings_append, hnil, keyBindings_singleton_self b b.binding_key rfl]
      simp
    refine ⟨?_, ?_, ?_⟩
    · intro hc
      rw [hkey] at hc
      simp at hc
    · intro b' hb'
      rw [hkey] at hb'
      simp only [List.cons.injEq, and_true] at hb'
      subst hb'
      exact Dict.find_set_self res b.binding_key b
    · rw [hkey]
      simp
  · have hkey : keyBindings (p ++ [b]) k = keyBindings p k := by
      rw [keyBindings_append, keyBindings_singleton_ne b k (fun hc => hkk hc.symm),
        List.append_nil]
    have hfind : Dict.find (Dict.set res b.binding_key b) k = Dict.find res k :=
      Dict.find_set_ne res b.binding_key k b hkk
    rw [hkey, hfind]
    exact hall k

theorem explicit_fold_ok (todo : List Binding) :
    ∀ (p : List Binding) (res : DictB) (col : DictS), ExplicitInv p res col →
      ∀ res' col',
        List.foldlM (mergeStep handle_explicit_binding_collision) (res, col) todo
          = Except.ok (res', col') → ExplicitInv (p ++ todo) res' col' := by
  induction todo with
  | nil =>
      intro p res col h res' col' hok
      rw [List.foldlM_nil, pureEqOk] at hok
      simp only [Except.ok.injEq, Prod.mk.injEq] at hok
      obtain ⟨rfl, rfl⟩ := hok
      simpa using h
  | cons b todo' ih =>
      intro p res col h res' col' hok
      have hcol0 : col = [] := h.1
      subst hcol0
      rcases hfr : Dict.find res b.binding_key with _ | a
      · have hstep := mergeStep_fresh handle_explicit_binding_collision res [] b hfr rfl
        rw [List.foldlM_cons, hstep, bindOk] at hok
        have hinv := explicitInv_step p res b h hfr
        have heq : (p ++ [b]) ++ todo' = p ++ b :: todo' := by simp
        rw [← heq]
        exact ih (p ++ [b]) (Dict.set res b.binding_key b) [] hinv res' col' hok
      · have hstep := mergeStep_explicit_collision res [] b a hfr
        rw [List.foldlM_cons, hstep, bindError] at hok
        cases hok

theorem explicit_fold_error (todo : List Binding) :
    ∀ (p : List Binding) (res : DictB) (col : DictS), ExplicitInv p res col →
      ¬ ((p ++ todo).map Binding.binding_key).Nodup →
      ∃ cb ob,
        List.foldlM (mergeStep handle_explicit_binding_collision) (res, col) todo
            = Except.error (BindingsError.conflictingBindings cb ob)
          ∧ cb ∈ p ++ todo ∧ ob ∈ p ++ todo ∧ cb.binding_key = ob.binding_key := by
  induction todo with
  | nil =>
      intro p res col h hdup
      exfalso
      apply hdup
      simp only [List.append_nil]
      exact nodup_of_counts p (fun k => ((h.2.2) k).2.2)
  | cons b todo' ih =>
      intro p res col h hdup
      have hcol0 : col = [] := h.1
      subst hcol0
      rcases hfr : Dict.find res b.binding_key with _ | a
      · have hstep := mergeStep_fresh handle_explicit_binding_collision res [] b hfr rfl
        have hinv := explicitInv_step p res b h hfr
        have heq : (p ++ [b]) ++ todo' = p ++ b :: todo' := by simp
        obtain ⟨cb, ob, hrun, hcb, hob, hkeq⟩ :=
          ih (p ++ [b]) (Dict.set res b.binding_key b) [] hinv (by rw [heq]; exact hdup)
        refine ⟨cb, ob, ?_, ?_, ?_, hkeq⟩
        · rw [List.foldlM_cons, hstep, bindOk]
          exact hrun
        · rw [← heq]
          exact hcb
        · rw [← heq]
          exact hob
      · have hstep := mergeStep_explicit_collision res [] b a hfr
        have hsub : keyBindings p b.binding_key = [a] := by
          rcases hh : keyBindings p b.binding_key with _ | ⟨x, _ | ⟨y, t⟩⟩
          · have := (h.2.2 b.binding_key).1 hh
            rw [this] at hfr
            cases hfr
          · have := (h.2.2 b.binding_key).2.1 x hh
            rw [this] at hfr
            injection hfr with hax
            rw [hax]
          · have := (h.2.2 b.binding_key).2.2
            rw [hh] at this
            simp at this
        have ham : a ∈ p ∧ a.binding_key = b.binding_key := by
          have hmem : a ∈ keyBindings p b.binding_key := by
            rw [hsub]
            exact List.mem_singleton.mpr rfl
          exact (mem_keyBindings p b.binding_key a).mp hmem
        refine ⟨b, a, ?_, ?_, ?_, ham.2.symm⟩
        · rw [List.foldlM_cons, hstep, bindError]
        · exact List.mem_append.mpr (Or.inr (List.mem_cons_self b todo'))
        · exact List.mem_append.mpr (Or.inl ham.1)

theorem overallGo_cons_ok (bindings : List Binding) (rest : List (List Binding))
    (res : DictB) (col : DictS) (tRes : DictB) (tCol : DictS)
    (h : get_binding_key_to_binding_maps bindings
        (if rest.isEmpty then handle_explicit_binding_collision
          else handle_implicit_binding_collision) = Except.ok (tRes, tCol)) :
    overallGo (bindings :: rest) res col
      = overallGo rest (Dict.update res tRes)
          (Dict.update (tRes.foldl (fun c kv => Dict.erase c kv.1) col) tCol) := by
  simp only [overallGo]
  rw [h]
  rfl

theorem overallGo_cons_error (bindings : List Binding) (rest : List (List Binding))
    (res : DictB) (col : DictS) (e : BindingsError)
    (h : get_binding_key_to_binding_maps bindings
        (if rest.isEmpty then handle_explicit_binding_collision
          else handle_implicit_binding_collision) = Except.error e) :
    overallGo (bindings :: rest) res col = Except.error e := by
  simp only [overallGo]
  rw [h]
  rfl

theorem implicitSpec_resolved_count (t : List Binding) (res : DictB) (col : DictS)
    (k : BindingKey) (b : Binding) (h : ImplicitSpec t res col)
    (hf : Dict.find res k = some b) : keyBindings t k = [b] := by
  obtain ⟨_, _, hall⟩ := h
  rcases hh : keyBindings t k with _ | ⟨x, _ | ⟨y, u⟩⟩
  · have := (hall k).1 hh
    rw [this.1] at hf
    cases hf
  · have := (hall k).2.1 x hh
    rw [this.1] at hf
    injection hf with hx
    rw [hx]
  · have h2 := (hall k).2.2 (by rw [hh]; simp only [List.length_cons]; omega)
    rw [h2.1] at hf
    cases hf

theorem implicitSpec_collided_count (t : List Binding) (res : DictB) (col : DictS)
    (k : BindingKey) (s : BindingSet) (h : ImplicitSpec t res col)
    (hf : Dict.find col k = some s) : 2 ≤ (keyBindings t k).length := by
  obtain ⟨_, _, hall⟩ := h
  rcases hh : keyBindings t k with _ | ⟨x, _ | ⟨y, u⟩⟩
  · have := (hall k).1 hh
    rw [this.2] at hf
    cases hf
  · have := (hall k).2.1 x hh
    rw [this.2] at hf
    cases hf
  · simp only [List.length_cons]
    omega

theorem overallGo_disjoint (rest : List (List Binding)) :
    ∀ (res : DictB) (col : DictS),
      (∀ k, (Dict.find res k).isSome = true →
        ∀ t ∈ rest, (keyBindings t k).length ≤ 1) →
      (∀ k, ¬((Dict.find res k).isSome = true ∧ (Dict.find col k).isSome = true)) →
      rest.Pairwise (fun t1 t2 =>
        ∀ k, (keyBindings t1 k).length = 1 → (keyBindings t2 k).length ≤ 1) →
      ∀ res' col', overallGo rest res col = Except.ok (res', col') →
        ∀ k, ¬((Dict.find res' k).isSome = true ∧ (Dict.find col' k).isSome = true) := by
  induction rest with
  | nil =>
      intro res col _ hB _ res' col' hok k
      simp only [overallGo, Except.ok.injEq, Prod.mk.injEq] at hok
      obtain ⟨rfl, rfl⟩ := hok
      exact hB k
  | cons t rest' ih =>
      intro res col hA hB hP res' col' hok k
      cases rest' with
      | nil =>
          rcases hmerge : get_binding_key_to_binding_maps t
              handle_explicit_binding_collision with e | ⟨tRes, tCol⟩
          · rw [overallGo_cons_error t [] res col e hmerge] at hok
            cases hok
          · have hginv : ExplicitInv t tRes tCol :=
              explicit_fold_ok t [] [] [] ⟨rfl, Dict.nodupKeys_nil, fun k2 =>
                ⟨fun _ => rfl, fun b hb => by simp [keyBindings] at hb,
                  by simp [keyBindings]⟩⟩ tRes tCol hmerge
            have hcolnil : tCol = [] := hginv.1
            subst hcolnil
            rw [overallGo_cons_ok t [] res col tRes [] hmerge] at hok
            simp only [overallGo, Except.ok.injEq, Prod.mk.injEq] at hok
            obtain ⟨rfl, rfl⟩ := hok
            rintro ⟨hr, hc⟩
            have hc' : (Dict.find (tRes.foldl (fun c kv => Dict.erase c kv.1) col) k).isSome
                = true := hc
            rw [Dict.find_foldl_erase tRes col k] at hc'
            by_cases hm : k ∈ tRes.map Prod.fst
            · rw [if_pos hm] at hc'
              simp at hc'
            · rw [if_neg hm] at hc'
              rcases hft : Dict.find tRes k with _ | b
              · rw [Dict.find_update_of_none tRes res k hft] at hr
                exact hB k ⟨hr, hc'⟩
              · exact hm ((Dict.find_isSome_iff tRes k).mp (by rw [hft]; rfl))
      | cons t2 rest'' =>
          obtain ⟨r, c, hmerge, hspec⟩ := implicit_tier_spec t
          rw [overallGo_cons_ok t (t2 :: rest'') res col r c hmerge] at hok
          refine ih (Dict.update res r)
            (Dict.update (r.foldl (fun c kv => Dict.erase c kv.1) col) c)
            ?_ ?_ (List.pairwise_cons.mp hP).2 res' col' hok k
          · intro k2 hsome tt htt
            rcases hfr : Dict.find r k2 with _ | b
            · rw [Dict.find_update_of_none r res k2 hfr] at hsome
              exact hA k2 hsome tt (List.mem_cons_of_mem t htt)
            · have hcount := implicitSpec_resolved_count t r c k2 b hspec hfr
              exact (List.pairwise_cons.mp hP).1 tt htt k2 (by rw [hcount]; rfl)
          · rintro k2 ⟨h1, h2⟩
            rcases hfc : Dict.find c k2 with _ | s
            · rw [Dict.find_update_of_none c _ k2 hfc,
                Dict.find_foldl_erase r col k2] at h2
              by_cases hm : k2 ∈ r.map Prod.fst
              · rw [if_pos hm] at h2
                simp at h2
              · rw [if_neg hm] at h2
                rcases hfr : Dict.find r k2 with _ | b
                · rw [Dict.find_update_of_none r res k2 hfr] at h1
                  exact hB k2 ⟨h1, h2⟩
                · exact hm ((Dict.find_isSome_iff r k2).mp (by rw [hfr]; rfl))
            · have h2c := implicitSpec_collided_count t r c k2 s hspec hfc
              rcases hfr : Dict.find r k2 with _ | b
              · rw [Dict.find_update_of_none r res k2 hfr] at h1
                have := hA k2 h1 t (List.mem_cons_self t (t2 :: rest''))
                omega
              · have hcount := implicitSpec_resolved_count t r c k2 b hspec hfr
                rw [hcount] at h2c
                simp at h2c

theorem length_keyBindings_singleton_le (b : Binding) (k : BindingKey) :
    (keyBindings [b] k).length ≤ 1 := by
  by_cases h : b.binding_key = k
  · rw [keyBindings_singleton_self b k h]
    simp
  · rw [keyBindings_singleton_ne b k h]
    simp

/-- C1 counterexample: with an implicit tier binding the key once, a
higher-priority implicit tier binding it twice, and an empty explicit tier,
the overall merge leaves the key in the resolved map (from the first tier)
and in the collided side-table (from the second), so the two maps are not
disjoint. -/
theorem C1_counterexample_key_in_both_maps :
    get_overall_binding_key_to_binding_maps
        [[sampleBinding 1 sampleKey],
          [sampleBinding 2 sampleKey, sampleBinding 3 sampleKey], []]
      = Except.ok ([(sampleKey, sampleBinding 1 sampleKey)],
          [(sampleKey, [sampleBinding 2 sampleKey, sampleBinding 3 sampleKey])])
    ∧ (Dict.find [(sampleKey, sampleBinding 1 sampleKey)] sampleKey).isSome = true
    ∧ (Dict.find [(sampleKey, [sampleBinding 2 sampleKey, sampleBinding 3 sampleKey])]
        sampleKey).isSome = true :=
  ⟨rfl, rfl, rfl⟩

/-- C1 (amended): for every ordered sequence of binding lists in which no
binding key bound exactly once in an earlier list is bound two or more
times in a later list, the two maps produced by the overall merge are
disjoint: no binding key is present in both the resolved map and the
collided side-table.  (Without that restriction the claim fails: a key
resolved by an earlier tier and collided by a later implicit tier ends up
in both maps, as the counterexample shows.) -/
theorem C1_amended_merged_maps_disjoint (bindings_lists : List (List Binding))
    (hp : bindings_lists.Pairwise (fun t1 t2 =>
      ∀ k, (keyBindings t1 k).length = 1 → (keyBindings t2 k).length ≤ 1))
    (res : DictB) (col : DictS)
    (hok : get_overall_binding_key_to_binding_maps bindings_lists = Except.ok (res, col))
    (k : BindingKey) :
    ¬((Dict.find res k).isSome = true ∧ (Dict.find col k).isSome = true) :=
  overallGo_disjoint bindings_lists [] []
    (fun k2 hsome => by simp [Dict.find] at hsome)
    (fun k2 hpair => by simp [Dict.find] at hpair)
    hp res col hok k

/-- Witness for the amended C1 theorem at a concrete three-tier input. -/
theorem C1_amended_witness :
    ¬((Dict.find [(sampleKey, sampleBinding 3 sampleKey),
          (otherKey, sampleBinding 2 otherKey)] sampleKey).isSome = true
      ∧ (Dict.find ([] : DictS) sampleKey).isSome = true) :=
  C1_amended_merged_maps_disjoint
    [[sampleBinding 1 sampleKey], [sampleBinding 2 otherKey], [sampleBinding 3 sampleKey]]
    (by
      refine List.Pairwise.cons ?_ (List.Pairwise.cons ?_
        (List.Pairwise.cons ?_ List.Pairwise.nil))
      · intro t2 ht2 k _
        rcases List.mem_cons.mp ht2 with h | h
        · subst h
          exact length_keyBindings_singleton_le _ k
        · rcases List.mem_cons.mp h with h2 | h2
          · subst h2
            exact length_keyBindings_singleton_le _ k
          · cases h2
      · intro t2 ht2 k _
        rcases List.mem_cons.mp ht2 with h | h
        · subst h
          exact length_keyBindings_singleton_le _ k
        · cases h
      · intro t2 ht2
        cases ht2)
    [(sampleKey, sampleBinding 3 sampleKey), (otherKey, sampleBinding 2 otherKey)]
    [] rfl sampleKey

/-- C2 counterexample: a key bound once in a lower implicit tier and once
in a higher implicit tier (and not in the explicit tier) is NOT collided:
the higher tier's binding silently overwrites, the key stays resolved, and
`get` returns that binding instead of raising the ambiguous error. -/
theorem C2_counterexample_cross_tier_overwrites :
    get_overall_binding_key_to_binding_maps
        [[sampleBinding 1 sampleKey], [sampleBinding 2 sampleKey], []]
      = Except.ok ([(sampleKey, sampleBinding 2 sampleKey)], [])
    ∧ BindingMapping.get
        { binding_key_to_binding := [(sampleKey, sampleBinding 2 sampleKey)],
          collided_binding_key_to_bindings := [] } sampleKey
      = Except.ok (sampleBinding 2 sampleKey) :=
  ⟨rfl, rfl⟩

/-- C2 (amended): a binding key bound twice within one and the same
implicit tier, with no binding for it in the explicit tier, is recorded in
the collided side-table and not in the resolved map after the overall
merge, and `BindingMapping.get` then raises the ambiguous-argument-name
error whose carried set holds exactly the two contributing bindings.
(Bindings in two different implicit tiers never collide: the
higher-priority tier overwrites, as the counterexample shows.) -/
theorem C2_amended_same_tier_ambiguous (b1 b2 : Binding) (k : BindingKey)
    (h1 : b1.binding_key = k) (h2 : b2.binding_key = k) :
    ∃ res col s,
      get_overall_binding_key_to_binding_maps [[b1, b2], []] = Except.ok (res, col)
        ∧ Dict.find res k = none
        ∧ Dict.find col k = some s
        ∧ (∀ x, x ∈ s ↔ (x = b1 ∨ x = b2))
        ∧ BindingMapping.get
            { binding_key_to_binding := res, collided_binding_key_to_bindings := col } k
          = Except.error (GetError.ambiguousArgName k s) := by
  have hb1 : Dict.find ([(b1.binding_key, b1)] : DictB) b2.binding_key = some b1 := by
    rw [h1, h2]
    simp [Dict.find]
  have hcomp : handle_implicit_binding_collision b2 [(b1.binding_key, b1)] []
      = Except.ok ([], [(b2.binding_key, [b1])]) := by
    simp only [handle_implicit_binding_collision]
    rw [hb1, h1, h2]
    simp [Dict.erase, Dict.set, Dict.find, setAdd]
  have hstep2 := mergeStep_of_handler handle_implicit_binding_collision
    [(b1.binding_key, b1)] [] b2 [] [(b2.binding_key, [b1])] (by rw [hb1]; rfl) hcomp
  have hf2 : Dict.find ([(b2.binding_key, [b1])] : DictS) b2.binding_key = some [b1] := by
    simp [Dict.find]
  rw [hf2] at hstep2
  have hstep1 : mergeStep handle_implicit_binding_collision (([] : DictB), ([] : DictS)) b1
      = Except.ok ([(b1.binding_key, b1)], []) :=
    mergeStep_fresh handle_implicit_binding_collision [] [] b1 rfl rfl
  have htier : get_binding_key_to_binding_maps [b1, b2] handle_implicit_binding_collision
      = Except.ok ([], [(b2.binding_key, setAdd [b1] b2)]) := by
    show List.foldlM (mergeStep handle_implicit_binding_collision) ([], []) [b1, b2] = _
    rw [List.foldlM_cons, hstep1, bindOk, List.foldlM_cons, hstep2, bindOk,
      List.foldlM_nil, pureEqOk]
    simp [Dict.set, Dict.erase]
  have hovAll : get_overall_binding_key_to_binding_maps [[b1, b2], []]
      = Except.ok ([], [(b2.binding_key, setAdd [b1] b2)]) := by
    show overallGo [[b1, b2], []] [] [] = _
    rw [overallGo_cons_ok [b1, b2] [[]] [] [] []
      [(b2.binding_key, setAdd [b1] b2)] htier]
    rw [overallGo_cons_ok [] [] _ _ [] [] rfl]
    simp only [overallGo]
    rfl
  refine ⟨[], [(b2.binding_key, setAdd [b1] b2)], setAdd [b1] b2, hovAll, rfl, ?_, ?_, ?_⟩
  · rw [h2]
    simp [Dict.find]
  · intro x
    rw [mem_setAdd]
    simp
  · simp [BindingMapping.get, Dict.find, h2]

/-- Witness for the amended C2 theorem at a concrete input. -/
theorem C2_amended_witness :
    ∃ res col s,
      get_overall_binding_key_to_binding_maps
          [[sampleBinding 1 sampleKey, sampleBinding 2 sampleKey], []]
        = Except.ok (res, col)
        ∧ Dict.find res sampleKey = none
        ∧ Dict.find col sampleKey = some s
        ∧ (∀ x, x ∈ s ↔ (x = sampleBinding 1 sampleKey ∨ x = sampleBinding 2 sampleKey))
        ∧ BindingMapping.get
            { binding_key_to_binding := res, collided_binding_key_to_bindings := col }
            sampleKey
          = Except.error (GetError.ambiguousArgName sampleKey s) :=
  C2_amended_same_tier_ambiguous (sampleBinding 1 sampleKey) (sampleBinding 2 sampleKey)
    sampleKey rfl rfl

/-- C3: a key declared once in an implicit tier, once in a higher-priority
implicit tier and once in the explicit (final) tier resolves to the
explicit tier's binding; it is absent from the collided side-table and
`BindingMapping.get` returns the explicit binding. -/
theorem C3_explicit_tier_wins (b1 b2 b3 : Binding) (k : BindingKey)
    (h1 : b1.binding_key = k) (h2 : b2.binding_key = k) (h3 : b3.binding_key = k) :
    ∃ res col,
      get_overall_binding_key_to_binding_maps [[b1], [b2], [b3]] = Except.ok (res, col)
        ∧ Dict.find res k = some b3
        ∧ Dict.find col k = none
        ∧ BindingMapping.get
            { binding_key_to_binding := res, collided_binding_key_to_bindings := col } k
          = Except.ok b3 := by
  have t1 : get_binding_key_to_binding_maps [b1] handle_implicit_binding_collision
      = Except.ok ([(k, b1)], []) := by
    have hs : mergeStep handle_implicit_binding_collision (([] : DictB), ([] : DictS)) b1
        = Except.ok ([(b1.binding_key, b1)], []) :=
      mergeStep_fresh handle_implicit_binding_collision [] [] b1 rfl rfl
    show List.foldlM (mergeStep handle_implicit_binding_collision) ([], []) [b1] = _
    rw [List.foldlM_cons, hs, bindOk, List.foldlM_nil, pureEqOk, h1]
  have t2 : get_binding_key_to_binding_maps [b2] handle_implicit_binding_collision
      = Except.ok ([(k, b2)], []) := by
    have hs : mergeStep handle_implicit_binding_collision (([] : DictB), ([] : DictS)) b2
        = Except.ok ([(b2.binding_key, b2)], []) :=
      mergeStep_fresh handle_implicit_binding_collision [] [] b2 rfl rfl
    show List.foldlM (mergeStep handle_implicit_binding_collision) ([], []) [b2] = _
    rw [List.foldlM_cons, hs, bindOk, List.foldlM_nil, pureEqOk, h2]
  have t3 : get_binding_key_to_binding_maps [b3] handle_explicit_binding_collision
      = Except.ok ([(k, b3)], []) := by
    have hs : mergeStep handle_explicit_binding_collision (([] : DictB), ([] : DictS)) b3
        = Except.ok ([(b3.binding_key, b3)], []) :=
      mergeStep_fresh handle_explicit_binding_collision [] [] b3 rfl rfl
    show List.foldlM (mergeStep handle_explicit_binding_collision) ([], []) [b3] = _
    rw [List.foldlM_cons, hs, bindOk, List.foldlM_nil, pureEqOk, h3]
  have hov : get_overall_binding_key_to_binding_maps [[b1], [b2], [b3]]
      = Except.ok ([(k, b3)], []) := by
    show overallGo [[b1], [b2], [b3]] [] [] = _
    rw [overallGo_cons_ok [b1] [[b2], [b3]] [] [] [(k, b1)] [] t1,
      overallGo_cons_ok [b2] [[b3]] _ _ [(k, b2)] [] t2,
      overallGo_cons_ok [b3] [] _ _ [(k, b3)] [] t3]
    simp only [overallGo]
    simp [Dict.update, Dict.set, Dict.erase]
  refine ⟨[(k, b3)], [], hov, ?_, rfl, ?_⟩
  · simp [Dict.find]
  · simp [BindingMapping.get, Dict.find]

/-- Witness for the C3 theorem at a concrete input. -/
theorem C3_witness :
    ∃ res col,
      get_overall_binding_key_to_binding_maps
          [[sampleBinding 1 sampleKey], [sampleBinding 2 sampleKey],
            [sampleBinding 3 sampleKey]]
        = Except.ok (res, col)
        ∧ Dict.find res sampleKey = some (sampleBinding 3 sampleKey)
        ∧ Dict.find col sampleKey = none
        ∧ BindingMapping.get
            { binding_key_to_binding := res, collided_binding_key_to_bindings := col }
            sampleKey
          = Except.ok (sampleBinding 3 sampleKey) :=
  C3_explicit_tier_wins (sampleBinding 1 sampleKey) (sampleBinding 2 sampleKey)
    (sampleBinding 3 sampleKey) sampleKey rfl rfl rfl

/-- C4: merging a binding list that contains two bindings with equal keys
as the explicit (final) tier raises the conflicting-bindings error, naming
the newly arriving binding and the already-bound one; the hypothesis covers
every ordering of the bindings within the tier. -/
theorem C4_explicit_duplicate_conflicts (bindings : List Binding)
    (hdup : ¬ (bindings.map Binding.binding_key).Nodup) :
    ∃ cb ob,
      get_overall_binding_key_to_binding_maps [bindings]
          = Except.error (BindingsError.conflictingBindings cb ob)
        ∧ cb ∈ bindings ∧ ob ∈ bindings ∧ cb.binding_key = ob.binding_key := by
  have hinv : ExplicitInv [] [] [] :=
    ⟨rfl, Dict.nodupKeys_nil, fun k =>
      ⟨fun _ => rfl, fun b hb => by simp [keyBindings] at hb, by simp [keyBindings]⟩⟩
  obtain ⟨cb, ob, hrun, hcb, hob, hk⟩ :=
    explicit_fold_error bindings [] [] [] hinv (by simpa using hdup)
  refine ⟨cb, ob, ?_, by simpa using hcb, by simpa using hob, hk⟩
  show overallGo [bindings] [] [] = _
  exact overallGo_cons_error bindings [] [] [] _ hrun

/-- Witness for the C4 theorem at a concrete two-binding explicit tier. -/
theorem C4_witness :
    ∃ cb ob,
      get_overall_binding_key_to_binding_maps
          [[sampleBinding 1 sampleKey, sampleBinding 2 sampleKey]]
        = Except.error (BindingsError.conflictingBindings cb ob)
        ∧ cb ∈ [sampleBinding 1 sampleKey, sampleBinding 2 sampleKey]
        ∧ ob ∈ [sampleBinding 1 sampleKey, sampleBinding 2 sampleKey]
        ∧ cb.binding_key = ob.binding_key :=
  C4_explicit_duplicate_conflicts
    [sampleBinding 1 sampleKey, sampleBinding 2 sampleKey] (by decide)

/-- C5: an implicit tier containing two or more bindings for the same key
merges without failing; in the tier's result the key is absent from the
resolved map and the collided side-table entry for it holds exactly the
bindings for that key in the tier. -/
theorem C5_implicit_collision_accumulates (bindings : List Binding) (k : BindingKey)
    (h2 : 2 ≤ (keyBindings bindings k).length) :
    ∃ res col,
      get_binding_key_to_binding_maps bindings handle_implicit_binding_collision
          = Except.ok (res, col)
        ∧ Dict.find res k = none
        ∧ ∃ s, Dict.find col k = some s
            ∧ ∀ b, (b ∈ s ↔ (b ∈ bindings ∧ b.binding_key = k)) := by
  obtain ⟨res, col, hok, hspec⟩ := implicit_tier_spec bindings
  obtain ⟨hfr, s, hfc, hmem⟩ := (hspec.2.2 k).2.2 h2
  refine ⟨res, col, hok, hfr, s, hfc, ?_⟩
  intro b
  rw [hmem b, mem_keyBindings]

/-- Witness for the C5 theorem at a concrete three-binding implicit tier. -/
theorem C5_witness :
    ∃ res col,
      get_binding_key_to_binding_maps
          [sampleBinding 1 sampleKey, sampleBinding 2 sampleKey, sampleBinding 3 sampleKey]
          handle_implicit_binding_collision
        = Except.ok (res, col)
        ∧ Dict.find res sampleKey = none
        ∧ ∃ s, Dict.find col sampleKey = some s
            ∧ ∀ b, (b ∈ s ↔ (b ∈ [sampleBinding 1 sampleKey, sampleBinding 2 sampleKey,
                sampleBinding 3 sampleKey] ∧ b.binding_key = sampleKey)) :=
  C5_implicit_collision_accumulates
    [sampleBinding 1 sampleKey, sampleBinding 2 sampleKey, sampleBinding 3 sampleKey]
    sampleKey (by decide)

/-- C6: `BindingMapping.get` behaves in exactly one of three ways: it
returns the binding when the key is in the resolved map, raises the
ambiguous-argument-name error carrying the key and the full colliding set
when the key is only in the collided table, and raises the
nothing-injectable error carrying the key alone otherwise.  It is a pure
function of the mapping: no merging and no state change. -/
theorem C6_get_trichotomy (m : BindingMapping) (k : BindingKey) :
    (∀ b, Dict.find m.binding_key_to_binding k = some b → m.get k = Except.ok b)
    ∧ (Dict.find m.binding_key_to_binding k = none →
        ∀ s, Dict.find m.collided_binding_key_to_bindings k = some s →
          m.get k = Except.error (GetError.ambiguousArgName k s))
    ∧ (Dict.find m.binding_key_to_binding k = none →
        Dict.find m.collided_binding_key_to_bindings k = none →
          m.get k = Except.error (GetError.nothingInjectableForArg k)) := by
  refine ⟨?_, ?_, ?_⟩
  · intro b hb
    simp [BindingMapping.get, hb]
  · intro hn s hs
    simp [BindingMapping.get, hn, hs]
  · intro hn hc
    simp [BindingMapping.get, hn, hc]

/-- Witness for the C6 theorem: the three behaviors at one concrete
mapping. -/
theorem C6_witness :
    BindingMapping.get sampleMapping sampleKey
      = Except.ok (sampleBinding 1 sampleKey)
    ∧ BindingMapping.get sampleMapping otherKey
      = Except.error (GetError.ambiguousArgName otherKey
          [sampleBinding 2 otherKey, sampleBinding 3 otherKey])
    ∧ BindingMapping.get sampleMapping (new_binding_key argC none)
      = Except.error (GetError.nothingInjectableForArg (new_binding_key argC none)) :=
  ⟨(C6_get_trichotomy sampleMapping sampleKey).1 (sampleBinding 1 sampleKey) rfl,
    (C6_get_trichotomy sampleMapping otherKey).2.1 rfl
      [sampleBinding 2 otherKey, sampleBinding 3 otherKey] rfl,
    (C6_get_trichotomy sampleMapping (new_binding_key argC none)).2.2 rfl rfl⟩

/-- C7: `get_child` raises the cyclic-injection error carrying the current
stack followed by the requested key whenever that key already occurs in the
stack, and otherwise returns a new context whose stack is the current stack
followed by the key. -/
theorem C7_get_child_cycle_detection (c : BindingContext) (k : BindingKey)
    (scope : String) :
    (k ∈ c.binding_key_stack →
        c.get_child k scope
          = Except.error (CtxError.cyclicInjection (c.binding_key_stack ++ [k])))
    ∧ (k ∉ c.binding_key_stack →
        c.get_child k scope
          = Except.ok (BindingContext.mk (c.binding_key_stack ++ [k]) scope)) := by
  constructor
  · intro hm
    simp [BindingContext.get_child, hm]
  · intro hm
    simp [BindingContext.get_child, hm]

/-- Witness for the C7 theorem: descending A, B from the fresh context
succeeds, a further A fails listing the stack A, B, A, and a further C
succeeds with stack A, B, C. -/
theorem C7_witness :
    new_binding_context.get_child keyA PROTOTYPE
      = Except.ok { binding_key_stack := [keyA], scope_id := PROTOTYPE }
    ∧ BindingContext.get_child
        { binding_key_stack := [keyA], scope_id := PROTOTYPE } keyB PROTOTYPE
      = Except.ok { binding_key_stack := [keyA, keyB], scope_id := PROTOTYPE }
    ∧ BindingContext.get_child
        { binding_key_stack := [keyA, keyB], scope_id := PROTOTYPE } keyA PROTOTYPE
      = Except.error (CtxError.cyclicInjection [keyA, keyB, keyA])
    ∧ BindingContext.get_child
        { binding_key_stack := [keyA, keyB], scope_id := PROTOTYPE } keyC PROTOTYPE
      = Except.ok { binding_key_stack := [keyA, keyB, keyC], scope_id := PROTOTYPE } :=
  ⟨(C7_get_child_cycle_detection new_binding_context keyA PROTOTYPE).2 (by decide),
    (C7_get_child_cycle_detection _ keyB PROTOTYPE).2 (by decide),
    (C7_get_child_cycle_detection _ keyA PROTOTYPE).1 (by decide),
    (C7_get_child_cycle_detection _ keyC PROTOTYPE).2 (by decide)⟩

/-- C8: `Binder.bind` validates the scope, the number of supplied target
forms and their shapes, in that order, and only appends a binding to the
accumulator when every validation passes. -/
theorem C8_bind_validations (binder : Binder) (arg_name : String)
    (annot_w : Option String) (cls inst prov : PyValue) (scope : String)
    (lineno : Nat) (filename : String) :
    (scope ∉ binder.scope_ids → ∀ c i p : Option PyValue,
        Binder.bind binder arg_name annot_w c i p scope lineno filename
          = Except.error (BindError.unknownScope scope))
    ∧ (scope ∈ binder.scope_ids →
        Binder.bind binder arg_name annot_w none none none scope lineno filename
          = Except.error (BindError.noBindingTarget (new_binding_key arg_name annot_w)))
    ∧ (scope ∈ binder.scope_ids → ∀ c i p : Option PyValue,
        2 ≤ (specifiedToParams c i p).length →
        Binder.bind binder arg_name annot_w c i p scope lineno filename
          = Except.error (BindError.multipleBindingTargets
              (new_binding_key arg_name annot_w) (specifiedToParams c i p)))
    ∧ (scope ∈ binder.scope_ids → cls.isClass = false →
        Binder.bind binder arg_name annot_w (some cls) none none scope lineno filename
          = Except.error (BindError.invalidBindingTarget
              (new_binding_key arg_name annot_w) cls classKind))
    ∧ (scope ∈ binder.scope_ids → prov.isCallable = false →
        Binder.bind binder arg_name annot_w none none (some prov) scope lineno filename
          = Except.error (BindError.invalidBindingTarget
              (new_binding_key arg_name annot_w) prov callableKind))
    ∧ (scope ∈ binder.scope_ids → cls.isClass = true →
        Binder.bind binder arg_name annot_w (some cls) none none scope lineno filename
          = Except.ok (Binder.mk (binder.collected_bindings
              ++ [Binding.mk (new_binding_key arg_name annot_w)
                  (ProviserFn.provideClass cls) scope (bindDesc lineno filename)])
              binder.scope_ids))
    ∧ (scope ∈ binder.scope_ids →
        Binder.bind binder arg_name annot_w none (some inst) none scope lineno filename
          = Except.ok (Binder.mk (binder.collected_bindings
              ++ [Binding.mk (new_binding_key arg_name annot_w)
                  (ProviserFn.returnInstance inst) scope (bindDesc lineno filename)])
              binder.scope_ids))
    ∧ (scope ∈ binder.scope_ids → prov.isCallable = true →
        Binder.bind binder arg_name annot_w none none (some prov) scope lineno filename
          = Except.ok (Binder.mk (binder.collected_bindings
              ++ [Binding.mk (new_binding_key arg_name annot_w)
                  (ProviserFn.callProvider prov) scope (bindDesc lineno filename)])
              binder.scope_ids)) := by
  refine ⟨?_, ?_, ?_, ?_, ?_, ?_, ?_, ?_⟩
  · intro hs c i p
    simp [Binder.bind, hs]
  · intro hs
    simp [Binder.bind, hs, create_proviser_fn, specifiedToParams, bindError]
  · intro hs c i p hlen
    have hne : (specifiedToParams c i p).isEmpty = false := by
      cases hsp : specifiedToParams c i p with
      | nil =>
          rw [hsp] at hlen
          simp at hlen
      | cons a l => rfl
    have hlt : 1 < (specifiedToParams c i p).length := hlen
    simp [Binder.bind, hs, create_proviser_fn, hne, hlt, bindError]
  · intro hs hcls
    simp [Binder.bind, hs, create_proviser_fn, specifiedToParams, hcls, bindError]
  · intro hs hpr
    simp [Binder.bind, hs, create_proviser_fn, specifiedToParams, hpr, bindError]
  · intro hs hcls
    simp [Binder.bind, hs, create_proviser_fn, specifiedToParams, hcls, bindOk, pureEqOk]
  · intro hs
    simp [Binder.bind, hs, create_proviser_fn, specifiedToParams, bindOk, pureEqOk]
  · intro hs hpr
    simp [Binder.bind, hs, create_proviser_fn, specifiedToParams, hpr, bindOk, pureEqOk]

/-- Witness for the C8 theorem: each validation branch at concrete
inputs. -/
theorem C8_witness :
    Binder.bind sampleBinder argFoo none none (some (sampleVal 7)) none badScope 3 sampleFile
      = Except.error (BindError.unknownScope badScope)
    ∧ Binder.bind sampleBinder argFoo none none none none PROTOTYPE 3 sampleFile
      = Except.error (BindError.noBindingTarget sampleKey)
    ∧ Binder.bind sampleBinder argFoo none (some (sampleCls 1)) (some (sampleVal 7)) none
        PROTOTYPE 3 sampleFile
      = Except.error (BindError.multipleBindingTargets sampleKey
          [toClassParam, toInstanceParam])
    ∧ Binder.bind sampleBinder argFoo none (some (sampleVal 7)) none none PROTOTYPE 3
        sampleFile
      = Except.error (BindError.invalidBindingTarget sampleKey (sampleVal 7) classKind)
    ∧ Binder.bind sampleBinder argFoo none none none (some (sampleVal 7)) PROTOTYPE 3
        sampleFile
      = Except.error (BindError.invalidBindingTarget sampleKey (sampleVal 7) callableKind)
    ∧ Binder.bind sampleBinder argFoo none none (some (sampleVal 7)) none PROTOTYPE 3
        sampleFile
      = Except.ok (Binder.mk [Binding.mk sampleKey (ProviserFn.returnInstance (sampleVal 7))
          PROTOTYPE (bindDesc 3 sampleFile)] [PROTOTYPE]) := by
  obtain ⟨g1, _, _, _, _, _, _, _⟩ :=
    C8_bind_validations sampleBinder argFoo none (sampleVal 7) (sampleVal 7) (sampleVal 7)
      badScope 3 sampleFile
  obtain ⟨_, h2, h3, h4, h5, _, h7, _⟩ :=
    C8_bind_validations sampleBinder argFoo none (sampleVal 7) (sampleVal 7) (sampleVal 7)
      PROTOTYPE 3 sampleFile
  exact ⟨g1 (by decide) none (some (sampleVal 7)) none,
    h2 (by decide),
    h3 (by decide) (some (sampleCls 1)) (some (sampleVal 7)) none (by decide),
    h4 (by decide) rfl,
    h5 (by decide) rfl,
    h7 (by decide)⟩

theorem camelLoopFuel_eq_nil (fuel : Nat) (chars : List Char)
    (h : noCamelStart chars = true) : camelLoopFuel fuel chars = [] := by
  cases fuel with
  | zero => rfl
  | succ n =>
      cases chars with
      | nil => rfl
      | cons c cs =>
          by_cases hu : c.isUpper = true
          · have hemp : (cs.takeWhile Char.isLower).isEmpty = true := by
              simp only [noCamelStart, hu, Bool.true_and, Bool.not_eq_true'] at h
              cases hx : (cs.takeWhile Char.isLower).isEmpty with
              | true => rfl
              | false =>
                  rw [hx] at h
                  simp at h
            simp [camelLoopFuel, hu, hemp]
          · simp [camelLoopFuel, hu]

/-- C9: the default class-name-to-argument-name convention maps the class
name FooBar to exactly the singleton foo_bar, maps _FooBar (one leading
marker stripped) to the same, and maps every class name with no recognized
word boundary at the scanning position (no upper-case letter followed by
lower-case letters after the optional leading-underscore strip) to the
empty list. -/
theorem C9_default_arg_names :
    default_get_arg_names_from_class_name fooBarName = [fooBarArg]
    ∧ default_get_arg_names_from_class_name underFooBarName = [fooBarArg]
    ∧ ∀ name : String, noCamelStart (stripLeadUnderscore name) = true →
        default_get_arg_names_from_class_name name = [] := by
  refine ⟨rfl, rfl, ?_⟩
  intro name h
  have hcl : camelLoop (stripLeadUnderscore name) = [] :=
    camelLoopFuel_eq_nil (stripLeadUnderscore name).length (stripLeadUnderscore name) h
  simp [default_get_arg_names_from_class_name, hcl]

/-- Witness for the conditional clause of the C9 theorem: FOOBar has no
word boundary at the scanning position and derives no argument name. -/
theorem C9_witness : default_get_arg_names_from_class_name allCapsName = [] :=
  C9_default_arg_names.2.2 allCapsName (by decide)

/-- C10: because `Binder.bind` and `create_proviser_fn` test target
presence by comparison with `None`, passing `to_instance=None` (modelled as
`none`, exactly like not passing the argument) with no other target raises
the no-binding-target error instead of creating a binding that would
provide `None`; the value `None` can therefore never be bound as an
instance. -/
theorem C10_none_instance_is_no_target (binder : Binder) (arg_name : String)
    (annotated_with : Option String) (in_scope : String) (lineno : Nat)
    (filename : String) (hs : in_scope ∈ binder.scope_ids) :
    Binder.bind binder arg_name annotated_with none none none in_scope lineno filename
      = Except.error (BindError.noBindingTarget
          (new_binding_key arg_name annotated_with)) := by
  simp [Binder.bind, hs, create_proviser_fn, specifiedToParams, bindError]

/-- Witness for the C10 theorem at a concrete binder. -/
theorem C10_witness :
    Binder.bind sampleBinder argFoo none none none none PROTOTYPE 3 sampleFile
      = Except.error (BindError.noBindingTarget sampleKey) :=
  C10_none_instance_is_no_target sampleBinder argFoo none PROTOTYPE 3 sampleFile (by decide)
